import Mathlib

/-!
Verification development for a Docker IPAM plugin (Rust).

The embedding below translates the address-pool allocation and
lease-lifecycle engine of the repository into Lean:

* `src/types.rs`   — the data model (`IpLease`, `PoolInfo`, `IpamState`,
  request/response records);
* `src/ipam.rs`    — the four operations (`request_pool`, `release_pool`,
  `request_address`, `release_address`) together with the first-fit
  scanner `allocate_next_ip` and the wall-clock id generator;
* `src/storage.rs` — persistence of the state as a YAML document.

Machine integers are modelled as `Nat` (IPv4 addresses live below `2^32`,
IPv6 below `2^128`; parsers enforce the bounds exactly as the Rust
checked arithmetic does).  Wall-clock readings (`SystemTime`,
`Utc::now()`) are nondeterministic inputs of the operations and appear
as explicit parameters.  File I/O is modelled by the serialized document
itself; whether an operation reached its `storage.save()` call is
reported as an explicit boolean.  Fallible code returns `Except`/`Option`.

String-level parsing follows the Rust standard library's IP parser
(`core/src/net/parser.rs`) and the `ipnetwork` crate's `FromStr`
implementations; display follows `std::fmt::Display` for addresses and
networks.
-/

/-- `std::net::IpAddr`: either a 32-bit IPv4 or a 128-bit IPv6 address,
modelled by its numeric (big-endian) value. -/
inductive IpAddr where
  | v4 (bits : Nat)
  | v6 (bits : Nat)
deriving DecidableEq, Repr

/-- Numeric value of an address. -/
def IpAddr.bits : IpAddr → Nat
  | .v4 b => b
  | .v6 b => b

/-- `IpAddr::is_ipv4`. -/
def IpAddr.is_ipv4 : IpAddr → Bool
  | .v4 _ => true
  | .v6 _ => false

/-- `ipnetwork::IpNetwork`: a CIDR network, storing the (possibly
unmasked) address and the validated prefix length. -/
inductive IpNetwork where
  | v4 (addr : Nat) (p : Nat)
  | v6 (addr : Nat) (p : Nat)
deriving DecidableEq, Repr

/-- Bit width of the address family (32 for IPv4, 128 for IPv6). -/
def IpNetwork.width : IpNetwork → Nat
  | .v4 _ _ => 32
  | .v6 _ _ => 128

/-- The stored (possibly unmasked) address value. -/
def IpNetwork.addrBits : IpNetwork → Nat
  | .v4 a _ => a
  | .v6 a _ => a

/-- The prefix length. -/
def IpNetwork.prefixLen : IpNetwork → Nat
  | .v4 _ p => p
  | .v6 _ p => p

/-- Number of addresses in the network: `2 ^ (width - prefix)`. -/
def IpNetwork.block (n : IpNetwork) : Nat := 2 ^ (n.width - n.prefixLen)

/-- Numeric value of the network's base address (the stored address with
its host bits masked off). -/
def IpNetwork.baseBits (n : IpNetwork) : Nat := n.addrBits / n.block * n.block

/-- Repackage a numeric value as an address of the network's family. -/
def IpNetwork.mkAddr : IpNetwork → Nat → IpAddr
  | .v4 _ _, b => .v4 b
  | .v6 _ _, b => .v6 b

/-- Whether an address belongs to the network's family. -/
def sameFamily : IpNetwork → IpAddr → Bool
  | .v4 _ _, .v4 _ => true
  | .v6 _ _, .v6 _ => true
  | _, _ => false

/-- `IpNetwork::contains`: family must match and the masked prefixes must
agree (floor-division by the block size is exactly the Rust bitmask
comparison). -/
def netContains (n : IpNetwork) (ip : IpAddr) : Bool :=
  sameFamily n ip && (ip.bits / n.block == n.addrBits / n.block)

/-- `IpNetwork::network()`: the base (network) address. -/
def IpNetwork.network (n : IpNetwork) : IpAddr := n.mkAddr n.baseBits

/-- `IpNetwork::broadcast()`: the last address of the network. -/
def IpNetwork.broadcast (n : IpNetwork) : IpAddr :=
  n.mkAddr (n.baseBits + n.block - 1)

/-- `IpNetwork::iter()`: all addresses of the network in ascending
order, starting at the base address. -/
def iterList (n : IpNetwork) : List IpAddr :=
  (List.range n.block).map (fun i => n.mkAddr (n.baseBits + i))

/-- `chrono::DateTime<Utc>` reading, kept opaque: only stored and
compared by the engine. -/
structure Timestamp where
  val : Nat
deriving DecidableEq, Repr

/-- `types.rs`: an IP lease assigned to a container. -/
structure IpLease where
  ip_address : IpAddr
  container_name : String
  lease_time : Timestamp
deriving DecidableEq, Repr

/-- `types.rs`: stored pool metadata. -/
structure PoolInfo where
  pool_id : String
  subnet : String
  gateway : Option String
deriving DecidableEq, Repr

/-- `types.rs`: the IPAM state that gets persisted to YAML.  The
`HashMap<String, PoolInfo>` is modelled as an association list whose
keys are kept unique by the insert operation. -/
structure IpamState where
  pools : List (String × PoolInfo)
  leases : List IpLease
deriving DecidableEq, Repr

/-- `types.rs`: response of `RequestPool`. -/
structure RequestPoolResponse where
  pool_id : String
  pool : String
  data : List (String × String)
deriving DecidableEq, Repr

/-- `types.rs`: response of `RequestAddress`. -/
structure RequestAddressResponse where
  address : String
  data : List (String × String)
deriving DecidableEq, Repr

/-- Error taxonomy of the engine: every `anyhow` error raised by
`ipam.rs` is one of these, carrying the exact message the code formats. -/
inductive IpamErr where
  | validation (msg : String)
  | notFound (msg : String)
  | exhaustion (msg : String)
deriving DecidableEq, Repr

instance {ε α : Type} [DecidableEq ε] [DecidableEq α] : DecidableEq (Except ε α) := fun
  | .error a, .error b =>
    match decEq a b with
    | .isTrue h => .isTrue (by rw [h])
    | .isFalse h => .isFalse (by intro hc; cases hc; exact h rfl)
  | .ok a, .ok b =>
    match decEq a b with
    | .isTrue h => .isTrue (by rw [h])
    | .isFalse h => .isFalse (by intro hc; cases hc; exact h rfl)
  | .error _, .ok _ => .isFalse (by intro hc; cases hc)
  | .ok _, .error _ => .isFalse (by intro hc; cases hc)

/-! ## Textual parsing

Faithful model of the Rust standard library IP parser
(`core/src/net/parser.rs`) over character lists; combinators return
`Option (value × rest)` and backtrack by construction. -/

/-- `char::to_digit`: value of a digit character in the given radix. -/
def digitVal (radix : Nat) (c : Char) : Option Nat :=
  let v : Option Nat :=
    if 48 ≤ c.toNat ∧ c.toNat ≤ 57 then some (c.toNat - 48)
    else if 97 ≤ c.toNat ∧ c.toNat ≤ 122 then some (c.toNat - 97 + 10)
    else if 65 ≤ c.toNat ∧ c.toNat ≤ 90 then some (c.toNat - 65 + 10)
    else none
  match v with
  | some d => if d < radix then some d else none
  | none => none

/-- Digit-accumulation loop of `Parser::read_number`: consumes digits,
failing (like the Rust checked arithmetic) when the accumulator would
exceed `maxVal` or when more than `maxDigits` digits appear.  Returns
the value, the digit count and the unread rest. -/
def readNumAux (radix maxVal : Nat) (maxDigits : Option Nat) :
    List Char → Nat → Nat → Option (Nat × Nat × List Char)
  | [], acc, cnt => some (acc, cnt, [])
  | c :: cs, acc, cnt =>
    match digitVal radix c with
    | none => some (acc, cnt, c :: cs)
    | some d =>
      let acc' := acc * radix + d
      if maxVal < acc' then none
      else
        match maxDigits with
        | some md =>
          if md < cnt + 1 then none
          else readNumAux radix maxVal maxDigits cs acc' (cnt + 1)
        | none => readNumAux radix maxVal maxDigits cs acc' (cnt + 1)

/-- `Parser::read_number`: at least one digit; a leading zero is
rejected when `allowZeroPad` is false and more than one digit was
read. -/
def read_number (radix maxVal : Nat) (maxDigits : Option Nat)
    (allowZeroPad : Bool) (cs : List Char) : Option (Nat × List Char) :=
  let hasLeadingZero := cs.head? = some '0'
  match readNumAux radix maxVal maxDigits cs 0 0 with
  | none => none
  | some (acc, cnt, rest) =>
    if cnt = 0 then none
    else if !allowZeroPad && hasLeadingZero && decide (1 < cnt) then none
    else some (acc, rest)

/-- `Parser::read_given_char`. -/
def readChar (c : Char) : List Char → Option (List Char)
  | x :: xs => if x = c then some xs else none
  | [] => none

/-- `Parser::read_ipv4_addr`: four dot-separated octets, each at most
three digits, no leading zeros, value at most 255. -/
def read_ipv4 (cs0 : List Char) : Option (Nat × List Char) := do
  let (o1, cs1) ← read_number 10 255 (some 3) false cs0
  let cs1 ← readChar '.' cs1
  let (o2, cs2) ← read_number 10 255 (some 3) false cs1
  let cs2 ← readChar '.' cs2
  let (o3, cs3) ← read_number 10 255 (some 3) false cs2
  let cs3 ← readChar '.' cs3
  let (o4, cs4) ← read_number 10 255 (some 3) false cs3
  pure (o1 * 16777216 + o2 * 65536 + o3 * 256 + o4, cs4)

/-- `Parser::read_separator`: a separator character is required before
every component except the first. -/
def readSep {α : Type} (c : Char) (i : Nat)
    (inner : List Char → Option (α × List Char)) (cs : List Char) :
    Option (α × List Char) :=
  if i = 0 then inner cs
  else
    match readChar c cs with
    | some cs' => inner cs'
    | none => none

/-- `read_groups` of `Parser::read_ipv6_addr`: reads up to `fuel`
colon-separated 16-bit hex groups starting at component index `i`;
before each group (while at least two slots remain) a trailing embedded
IPv4 address is attempted, which fills two groups and ends the scan.
Returns the groups read, whether an embedded IPv4 ended the scan, and
the unread rest. -/
def readGroupsAux : Nat → Nat → List Char → List Nat × Bool × List Char
  | 0, _, cs => ([], false, cs)
  | fuel + 1, i, cs =>
    match (if 1 ≤ fuel then readSep ':' i read_ipv4 cs else none) with
    | some (v4, rest) => ([v4 / 65536, v4 % 65536], true, rest)
    | none =>
      match readSep ':' i (read_number 16 65535 (some 4) true) cs with
      | some (g, rest) =>
        let (gs, b, rest') := readGroupsAux fuel (i + 1) rest
        (g :: gs, b, rest')
      | none => ([], false, cs)

/-- Combine eight 16-bit groups (big-endian) into the 128-bit value. -/
def groupsToNat (gs : List Nat) : Nat := gs.foldl (fun a g => a * 65536 + g) 0

/-- `Parser::read_ipv6_addr`: head groups, then an optional `::`
followed by tail groups filling the low end, zeros in between. -/
def read_ipv6 (cs : List Char) : Option (Nat × List Char) :=
  let (head, headV4, rest) := readGroupsAux 8 0 cs
  if head.length = 8 then some (groupsToNat head, rest)
  else if headV4 then none
  else
    match readChar ':' rest with
    | none => none
    | some rest1 =>
      match readChar ':' rest1 with
      | none => none
      | some rest2 =>
        let limit := 8 - (head.length + 1)
        let (tail, _, rest3) := readGroupsAux limit 0 rest2
        let zeros := List.replicate (8 - head.length - tail.length) 0
        some (groupsToNat (head ++ zeros ++ tail), rest3)

/-- `IpAddr::from_str`: try IPv4 then IPv6; the whole input must be
consumed.  A successful IPv4 read with trailing garbage fails without
retrying IPv6, exactly as `Parser::parse_with` does. -/
def parseIpAddr (s : String) : Option IpAddr :=
  match read_ipv4 s.data with
  | some (n, rest) => if rest = [] then some (.v4 n) else none
  | none =>
    match read_ipv6 s.data with
    | some (n, rest) => if rest = [] then some (.v6 n) else none
    | none => none

/-- `str::split` on a single character (always at least one component). -/
def splitOnChar (c : Char) : List Char → List (List Char)
  | [] => [[]]
  | x :: xs =>
    let r := splitOnChar c xs
    if x = c then [] :: r
    else
      match r with
      | h :: t => (x :: h) :: t
      | [] => [[x]]

/-- `ipnetwork::cidr_parts`: split a CIDR string at a single `/`; more
than one `/` is an error, none means the whole string is the address. -/
def cidrParts (s : String) : Option (List Char × Option (List Char)) :=
  match splitOnChar '/' s.data with
  | [addr] => some (addr, none)
  | [addr, pfx] => some (addr, some pfx)
  | _ => none

/-- `u8::from_str`: optional leading `+`, then one or more decimal
digits with checked accumulation below 256. -/
def parseU8 (cs : List Char) : Option Nat :=
  let cs := match cs with
    | '+' :: rest => rest
    | other => other
  match cs with
  | [] => none
  | _ =>
    match readNumAux 10 255 none cs 0 0 with
    | none => none
    | some (acc, _, rest) => if rest = [] then some acc else none

/-- `ipnetwork::parse_prefix`: a `u8` that is at most the family's bit
width. -/
def parse_prefix (cs : List Char) (max : Nat) : Option Nat :=
  match parseU8 cs with
  | none => none
  | some p => if max < p then none else some p

/-- `Ipv4Network::from_str`: address, optional `/prefix` (default 32). -/
def parseIpv4Network (s : String) : Option IpNetwork :=
  match cidrParts s with
  | none => none
  | some (addrCs, pfxCs) =>
    match read_ipv4 addrCs with
    | some (a, []) =>
      match parse_prefix (pfxCs.getD ['3', '2']) 32 with
      | some p => some (.v4 a p)
      | none => none
    | _ => none

/-- `Ipv6Network::from_str`: address, optional `/prefix` (default 128). -/
def parseIpv6Network (s : String) : Option IpNetwork :=
  match cidrParts s with
  | none => none
  | some (addrCs, pfxCs) =>
    match read_ipv6 addrCs with
    | some (a, []) =>
      match parse_prefix (pfxCs.getD ['1', '2', '8']) 128 with
      | some p => some (.v6 a p)
      | none => none
    | _ => none

/-- `IpNetwork::from_str`: try the IPv4 form first, then IPv6. -/
def parseIpNetwork (s : String) : Option IpNetwork :=
  match parseIpv4Network s with
  | some n => some n
  | none => parseIpv6Network s

/-! ## Textual display (`std::fmt::Display`) -/

/-- Decimal digits of `n`, most significant first (fuel-based so the
kernel can evaluate it). -/
def decDigitsAux : Nat → Nat → List Char
  | 0, _ => []
  | fuel + 1, n =>
    if n < 10 then [Char.ofNat (48 + n)]
    else decDigitsAux fuel (n / 10) ++ [Char.ofNat (48 + n % 10)]

/-- Decimal rendering of a natural number. -/
def decStr (n : Nat) : String := ⟨decDigitsAux (n + 1) n⟩

/-- `Ipv4Addr` display: dotted quad. -/
def dispIpv4 (n : Nat) : String :=
  decStr (n / 16777216 % 256) ++ "." ++ decStr (n / 65536 % 256) ++ "." ++
    decStr (n / 256 % 256) ++ "." ++ decStr (n % 256)

/-- Lowercase hexadecimal digits of `n`, most significant first. -/
def hexDigitsAux : Nat → Nat → List Char
  | 0, _ => []
  | fuel + 1, n =>
    if n < 16 then [if n < 10 then Char.ofNat (48 + n) else Char.ofNat (87 + n)]
    else hexDigitsAux fuel (n / 16) ++
      [if n % 16 < 10 then Char.ofNat (48 + n % 16) else Char.ofNat (87 + n % 16)]

/-- Lowercase hexadecimal rendering of a natural number. -/
def hexStr (n : Nat) : String := ⟨hexDigitsAux (n + 1) n⟩

/-- The 16-bit segments of an IPv6 address, most significant first. -/
def v6Segments (n : Nat) : List Nat :=
  (List.range 8).map (fun i => n / 2 ^ (16 * (7 - i)) % 65536)

/-- Longest run of zero segments (first such run on ties): returns
`(start, length)`. -/
def longestZeroRun (segs : List Nat) : Nat × Nat :=
  let rec go : List Nat → Nat → Nat × Nat → Nat × Nat → Nat × Nat
    | [], _, cur, best => if best.2 < cur.2 then cur else best
    | s :: rest, i, cur, best =>
      if s = 0 then
        let cur' := if cur.2 = 0 then (i, 1) else (cur.1, cur.2 + 1)
        go rest (i + 1) cur' best
      else
        go rest (i + 1) (0, 0) (if best.2 < cur.2 then cur else best)
  go segs 0 (0, 0) (0, 0)

/-- Hex segments joined with `:`. -/
def hexJoin (segs : List Nat) : String :=
  String.intercalate ":" (segs.map hexStr)

/-- `Ipv6Addr` display: IPv4-mapped addresses use the mixed notation,
otherwise the longest run of at least two zero segments is compressed
to `::`. -/
def dispIpv6 (n : Nat) : String :=
  let segs := v6Segments n
  if segs.take 6 = [0, 0, 0, 0, 0, 65535] then
    "::ffff:" ++ dispIpv4 (n % 4294967296)
  else
    let (start, len) := longestZeroRun segs
    if 1 < len then
      hexJoin (segs.take start) ++ "::" ++ hexJoin (segs.drop (start + len))
    else hexJoin segs

/-- `IpAddr` display. -/
def dispIp : IpAddr → String
  | .v4 n => dispIpv4 n
  | .v6 n => dispIpv6 n

/-- `IpNetwork` display: the stored address followed by `/prefix`. -/
def dispNet (n : IpNetwork) : String :=
  (match n with
    | .v4 a _ => dispIpv4 a
    | .v6 a _ => dispIpv6 a) ++ "/" ++ decStr n.prefixLen

/-! ## The wall-clock id generator (`mod uuid` in `ipam.rs`)

`Uuid::new_v4` reads `SystemTime::now()` as nanoseconds since the Unix
epoch; the reading is a nondeterministic input and appears as the
explicit parameter `nanos`.  `Display` renders it as `{:032x}`:
zero-padded 32-digit lowercase hex. -/

/-- `impl fmt::Display for Uuid`: `{:032x}` of the stored `u128`. -/
def uuidDisplay (nanos : Nat) : String :=
  ⟨List.replicate (32 - (hexDigitsAux (nanos + 1) nanos).length) '0' ++
    hexDigitsAux (nanos + 1) nanos⟩

/-- The pool id built by `request_pool`: `format!("pool-{}", new_v4())`. -/
def genPoolId (nanos : Nat) : String := "pool-" ++ uuidDisplay nanos

/-- Inverse of the hex digit characters produced by `hexDigitsAux`
(verification helper, not from the source). -/
def unhexVal (c : Char) : Nat :=
  if 97 ≤ c.toNat then c.toNat - 87 else c.toNat - 48

/-- Numeric value of a big-endian hex digit string (verification
helper, not from the source). -/
def unhex (cs : List Char) : Nat :=
  cs.foldl (fun a c => a * 16 + unhexVal c) 0

/-! ## The allocation engine (`ipam.rs`)

Each operation takes the in-memory `IpamState` and returns its result,
the new state, and whether the operation reached its `storage.save()`
call.  The save itself is modelled by the serialization functions of the
storage section below; I/O failure is not modelled (every error surfaced
here is raised before the save). -/

/-- `HashMap::get` on the association-list model. -/
def mapGet (m : List (String × PoolInfo)) (k : String) : Option PoolInfo :=
  (m.find? (fun kv => kv.1 == k)).map (·.2)

/-- `HashMap::insert`: replaces the entry when the key is present,
otherwise appends. -/
def mapInsert (m : List (String × PoolInfo)) (k : String) (v : PoolInfo) :
    List (String × PoolInfo) :=
  if m.any (fun kv => kv.1 == k) then
    m.map (fun kv => if kv.1 == k then (k, v) else kv)
  else m ++ [(k, v)]

/-- `HashMap::remove` (the removed value is not needed by the engine). -/
def mapRemove (m : List (String × PoolInfo)) (k : String) :
    List (String × PoolInfo) :=
  m.filter (fun kv => kv.1 != k)

/-- Lookup in the request's options map. -/
def optsGet (options : Option (List (String × String))) (k : String) :
    Option String :=
  options.bind (fun opts => ((opts.find? (fun kv => kv.1 == k)).map (·.2)))

/-- `request_address`'s container-name extraction: endpoint name, then
`container_name`, then the container id, defaulting to `"unknown"`. -/
def extractContainerName (options : Option (List (String × String))) : String :=
  match optsGet options "com.docker.network.endpoint.name" with
  | some n => n
  | none =>
    match optsGet options "container_name" with
    | some n => n
    | none =>
      match optsGet options "com.docker.network.container.id" with
      | some n => n
      | none => "unknown"

/-- The set of already-allocated addresses gathered by
`allocate_next_ip`: addresses of leases contained in the network. -/
def allocatedIn (network : IpNetwork) (leases : List IpLease) : List IpAddr :=
  (leases.filter (fun lease => netContains network lease.ip_address)).map
    (·.ip_address)

/-- `IpamPlugin::allocate_next_ip`: scan the network's addresses in
ascending order, skipping the first (network address) and, for IPv4,
the broadcast address; return the first not already allocated, or
`none` (the `ExhaustionError`) when the scan is exhausted. -/
def allocate_next_ip (network : IpNetwork) (leases : List IpLease) :
    Option IpAddr :=
  ((iterList network).drop 1).find? (fun ip =>
    !(ip.is_ipv4 && ip == network.broadcast) &&
      !((allocatedIn network leases).contains ip))

/-- `IpamPlugin::request_pool`: default the subnet, generate the id,
validate the CIDR, insert the pool and save. -/
def request_pool (defaultSubnet : String) (nanos : Nat)
    (poolReq : Option String) (s : IpamState) :
    Except IpamErr RequestPoolResponse × IpamState × Bool :=
  let pool := poolReq.getD defaultSubnet
  let pool_id := genPoolId nanos
  match parseIpNetwork pool with
  | none => (.error (.validation "Invalid subnet format"), s, false)
  | some _ =>
    let pool_info : PoolInfo := ⟨pool_id, pool, none⟩
    (.ok ⟨pool_id, pool, []⟩,
      { s with pools := mapInsert s.pools pool_id pool_info }, true)

/-- `IpamPlugin::release_pool`: remove the pool entry (present or not),
and when it was present and its stored subnet parses, drop every lease
contained in that subnet; always save and succeed. -/
def release_pool (pool_id : String) (s : IpamState) :
    Except IpamErr Unit × IpamState × Bool :=
  let pool_subnet := (mapGet s.pools pool_id).map (·.subnet)
  let pools' := mapRemove s.pools pool_id
  let leases' :=
    match pool_subnet with
    | some subnet =>
      match parseIpNetwork subnet with
      | some network =>
        s.leases.filter (fun lease => !netContains network lease.ip_address)
      | none => s.leases
    | none => s.leases
  (.ok (), ⟨pools', leases'⟩, true)

/-- `IpamPlugin::request_address`: look up the pool, parse its subnet,
choose the target address (parse the requested one, or first-fit scan),
check containment, then replace any lease for that address and save. -/
def request_address (pool_id : String) (address : Option String)
    (options : Option (List (String × String))) (now : Timestamp)
    (s : IpamState) :
    Except IpamErr RequestAddressResponse × IpamState × Bool :=
  match mapGet s.pools pool_id with
  | none => (.error (.notFound ("Pool not found: " ++ pool_id)), s, false)
  | some pool_info =>
    match parseIpNetwork pool_info.subnet with
    | none => (.error (.validation "Invalid subnet in pool"), s, false)
    | some network =>
      let container_name := extractContainerName options
      let ipRes : Except IpamErr IpAddr :=
        match address with
        | some requested =>
          match parseIpAddr requested with
          | some ip => .ok ip
          | none => .error (.validation "Invalid IP address format")
        | none =>
          match allocate_next_ip network s.leases with
          | some ip => .ok ip
          | none =>
            .error (.exhaustion
              ("No available IP addresses in subnet " ++ dispNet network))
      match ipRes with
      | .error e => (.error e, s, false)
      | .ok ip_addr =>
        if netContains network ip_addr then
          let lease : IpLease := ⟨ip_addr, container_name, now⟩
          let leases' :=
            s.leases.filter (fun l => l.ip_address != ip_addr) ++ [lease]
          (.ok ⟨dispIp ip_addr ++ "/" ++ decStr network.prefixLen, []⟩,
            { s with leases := leases' }, true)
        else
          (.error (.validation ("IP address " ++ dispIp ip_addr ++
            " is not in subnet " ++ dispNet network)), s, false)

/-- The `split('/').next().unwrap_or(..)` step of `release_address`. -/
def stripCidrSuffix (address : String) : String :=
  ⟨(splitOnChar '/' address.data).headD address.data⟩

/-- `IpamPlugin::release_address`: strip any `/prefix`, parse the
address (failure is a validation error), drop any lease for it, and
save whether or not one was removed.  The pool id is never consulted. -/
def release_address (pool_id : String) (address : String) (s : IpamState) :
    Except IpamErr Unit × IpamState × Bool :=
  match parseIpAddr (stripCidrSuffix address) with
  | none => (.error (.validation "Invalid IP address format"), s, false)
  | some ip_addr =>
    (.ok (),
      { s with leases := s.leases.filter (fun l => l.ip_address != ip_addr) },
      true)

/-- One inbound operation, with its nondeterministic inputs (generated
id clock reading, current time) made explicit. -/
inductive IpamOp where
  | reqPool (nanos : Nat) (pool : Option String)
  | relPool (pool_id : String)
  | reqAddr (pool_id : String) (address : Option String)
      (options : Option (List (String × String))) (now : Timestamp)
  | relAddr (pool_id : String) (address : String)

/-- Successful payloads of the four operations. -/
inductive OpOutput where
  | pool (r : RequestPoolResponse)
  | addr (r : RequestAddressResponse)
  | ack
deriving DecidableEq, Repr

/-- Dispatch an operation against the state. -/
def applyOp (defaultSubnet : String) :
    IpamOp → IpamState → Except IpamErr OpOutput × IpamState × Bool
  | .reqPool nanos pool, s =>
    ((request_pool defaultSubnet nanos pool s).1.map .pool,
      (request_pool defaultSubnet nanos pool s).2)
  | .relPool pid, s =>
    ((release_pool pid s).1.map (fun _ => .ack), (release_pool pid s).2)
  | .reqAddr pid addr opts now, s =>
    ((request_address pid addr opts now s).1.map .addr,
      (request_address pid addr opts now s).2)
  | .relAddr pid addr, s =>
    ((release_address pid addr s).1.map (fun _ => .ack),
      (release_address pid addr s).2)

/-- States reachable from the initial empty state (`Storage::new` with
no existing file) by any sequence of operations. -/
inductive Reachable (defaultSubnet : String) : IpamState → Prop
  | init : Reachable defaultSubnet ⟨[], []⟩
  | step {s : IpamState} (op : IpamOp) :
      Reachable defaultSubnet s →
      Reachable defaultSubnet (applyOp defaultSubnet op s).2.1

/-- Invariant: at most one lease per distinct address. -/
def LeaseInv (s : IpamState) : Prop :=
  (s.leases.map (·.ip_address)).Nodup

/-- A usable host address of a network: contained in it, not its base
address, and not the broadcast address when IPv4. -/
def UsableHost (n : IpNetwork) (ip : IpAddr) : Prop :=
  netContains n ip = true ∧ ip ≠ n.network ∧
    ¬(ip.is_ipv4 = true ∧ ip = n.broadcast)

/-- The family tag of the network, as a Bool (verification helper, not
from the source). -/
def IpNetwork.isV4 : IpNetwork → Bool
  | .v4 _ _ => true
  | .v6 _ _ => false

/-! ## Persistence (`storage.rs`)

`Storage::save` serializes the full state with `serde_yaml` and writes
it atomically; `Storage::new` reads the file back and parses it.  The
YAML document is modelled structurally: mappings, sequences, and
scalars.  The scalar forms of the leaf types serialized by libraries
(`IpAddr` via its `Display`/`FromStr` pair, `DateTime<Utc>` via RFC 3339
— both round-tripping codecs supplied by std/chrono) are modelled as
typed scalars carrying the value; the structure, field names and
null/`Option` handling of the derived `Serialize`/`Deserialize`
implementations are modelled exactly. -/

/-- A YAML document. -/
inductive Yaml where
  | str (s : String)
  | ipScalar (a : IpAddr)
  | timeScalar (t : Timestamp)
  | null
  | seq (items : List Yaml)
  | map (entries : List (String × Yaml))

/-- Serialize an `Option<String>` field (`None` becomes `null`). -/
def encodeOptStr : Option String → Yaml
  | none => .null
  | some s => .str s

/-- Derived `Serialize` for `PoolInfo`. -/
def encodePool (p : PoolInfo) : Yaml :=
  .map [("pool_id", .str p.pool_id), ("subnet", .str p.subnet),
    ("gateway", encodeOptStr p.gateway)]

/-- Derived `Serialize` for `IpLease`. -/
def encodeLease (l : IpLease) : Yaml :=
  .map [("ip_address", .ipScalar l.ip_address),
    ("container_name", .str l.container_name),
    ("lease_time", .timeScalar l.lease_time)]

/-- Derived `Serialize` for `IpamState`: the body of `Storage::save`. -/
def storageSave (s : IpamState) : Yaml :=
  .map [("pools", .map (s.pools.map (fun kv => (kv.1, encodePool kv.2)))),
    ("leases", .seq (s.leases.map encodeLease))]

/-- Look a key up in a YAML mapping. -/
def yamlGet (entries : List (String × Yaml)) (k : String) : Option Yaml :=
  (entries.find? (fun kv => kv.1 == k)).map (·.2)

/-- Deserialize a string scalar. -/
def asStr : Yaml → Option String
  | .str s => some s
  | _ => none

/-- Deserialize an `Option<String>` field. -/
def asOptStr : Yaml → Option (Option String)
  | .null => some none
  | .str s => some (some s)
  | _ => none

/-- Derived `Deserialize` for `PoolInfo`. -/
def decodePool (y : Yaml) : Option PoolInfo :=
  match y with
  | .map es => do
    let pid ← (yamlGet es "pool_id").bind asStr
    let sub ← (yamlGet es "subnet").bind asStr
    let gw ← (yamlGet es "gateway").bind asOptStr
    pure ⟨pid, sub, gw⟩
  | _ => none

/-- Derived `Deserialize` for `IpLease`. -/
def decodeLease (y : Yaml) : Option IpLease :=
  match y with
  | .map es => do
    let ip ←
      match yamlGet es "ip_address" with
      | some (.ipScalar a) => some a
      | _ => none
    let cn ← (yamlGet es "container_name").bind asStr
    let lt ←
      match yamlGet es "lease_time" with
      | some (.timeScalar t) => some t
      | _ => none
    pure ⟨ip, cn, lt⟩
  | _ => none

/-- Deserialize every entry of the `pools` mapping, failing if any
entry fails. -/
def decodePoolEntries : List (String × Yaml) →
    Option (List (String × PoolInfo))
  | [] => some []
  | (k, y) :: rest =>
    match decodePool y, decodePoolEntries rest with
    | some p, some ps => some ((k, p) :: ps)
    | _, _ => none

/-- Deserialize every item of the `leases` sequence, failing if any
item fails. -/
def decodeLeaseItems : List Yaml → Option (List IpLease)
  | [] => some []
  | y :: rest =>
    match decodeLease y, decodeLeaseItems rest with
    | some l, some ls => some (l :: ls)
    | _, _ => none

/-- Derived `Deserialize` for `IpamState`: the parse performed by
`Storage::new` (and `Storage::reload`) on the saved file. -/
def storageLoad (y : Yaml) : Option IpamState :=
  match y with
  | .map es =>
    match yamlGet es "pools", yamlGet es "leases" with
    | some (.map poolEntries), some (.seq leaseItems) =>
      match decodePoolEntries poolEntries, decodeLeaseItems leaseItems with
      | some pools, some leases => some ⟨pools, leases⟩
      | _, _ => none
    | _, _ => none
  | _ => none

/-! ## Concrete fixtures used by the claims -/

/-- A state holding one pool over `10.0.0.0/30` and no leases. -/
def pool30State : IpamState := ⟨[("p", ⟨"p", "10.0.0.0/30", none⟩)], []⟩

/-- The state after the first automatic allocation from the `/30` pool. -/
def pool30State1 : IpamState :=
  (request_address "p" none none ⟨0⟩ pool30State).2.1

/-- The state after the second automatic allocation from the `/30` pool. -/
def pool30State2 : IpamState :=
  (request_address "p" none none ⟨1⟩ pool30State1).2.1

/-! ## Sanity checks on the embedding -/

example : parseIpAddr "10.0.0.1" = some (.v4 167772161) := by decide
example : parseIpAddr "10.0.0.1/24" = none := by decide
example : parseIpAddr "::1" = some (.v6 1) := by decide
example : (parseIpAddr "1:2:3:4:5:6:7:8").isSome = true := by decide
example : parseIpAddr "1::ffff:1.2.3.4" =
    parseIpAddr "1:0:0:0:0:ffff:102:304" := by decide
example : parseIpNetwork "10.0.0.0/30" = some (.v4 167772160 30) := by decide
example : parseIpNetwork "invalid-subnet" = none := by decide
example : netContains (.v4 167772160 30) (.v4 167772161) = true := by decide
example : (iterList (.v4 167772160 30)).length = 4 := by decide
example : IpNetwork.broadcast (.v4 167772160 30) = .v4 167772163 := by decide
example : dispIpv4 167772161 = "10.0.0.1" := by decide
example : dispNet (.v4 167772160 30) = "10.0.0.0/30" := by decide
example : dispIpv6 1 = "::1" := by decide
example : genPoolId 0 = "pool-00000000000000000000000000000000" := by decide
example :
    allocate_next_ip (.v4 167772160 30) [] = some (.v4 167772161) := by decide
example :
    allocate_next_ip (.v4 167772160 30)
      [⟨.v4 167772161, "a", ⟨0⟩⟩, ⟨.v4 167772162, "b", ⟨1⟩⟩] = none := by
  decide
example :
    storageLoad (storageSave ⟨[("p", ⟨"p", "10.0.0.0/24", some "10.0.0.1"⟩)],
      [⟨.v4 7, "c", ⟨3⟩⟩]⟩) =
      some ⟨[("p", ⟨"p", "10.0.0.0/24", some "10.0.0.1"⟩)],
        [⟨.v4 7, "c", ⟨3⟩⟩]⟩ := by decide

/-! ## Helper lemmas -/

theorem IpNetwork.block_pos (n : IpNetwork) : 0 < n.block :=
  Nat.pos_pow_of_pos _ (by norm_num)

theorem IpNetwork.bits_mkAddr (n : IpNetwork) (b : Nat) :
    (n.mkAddr b).bits = b := by
  cases n <;> rfl

theorem IpNetwork.mkAddr_inj (n : IpNetwork) {a b : Nat}
    (h : n.mkAddr a = n.mkAddr b) : a = b := by
  cases n <;> simpa [IpNetwork.mkAddr] using h

theorem sameFamily_mkAddr (n : IpNetwork) (b : Nat) :
    sameFamily n (n.mkAddr b) = true := by
  cases n <;> rfl

theorem is_ipv4_mkAddr (n : IpNetwork) (b : Nat) :
    (n.mkAddr b).is_ipv4 = n.isV4 := by
  cases n <;> rfl

theorem netContains_mkAddr_iff (n : IpNetwork) (b : Nat) :
    netContains n (n.mkAddr b) = true ↔ b / n.block = n.addrBits / n.block := by
  simp [netContains, sameFamily_mkAddr, IpNetwork.bits_mkAddr]

theorem netContains_base_add (n : IpNetwork) (i : Nat) (h : i < n.block) :
    netContains n (n.mkAddr (n.baseBits + i)) = true := by
  rw [netContains_mkAddr_iff]
  unfold IpNetwork.baseBits
  rw [Nat.mul_comm (n.addrBits / n.block) n.block,
    Nat.mul_add_div n.block_pos, Nat.div_eq_of_lt h, Nat.add_zero]

theorem sameFamily_shape (n : IpNetwork) (ip : IpAddr)
    (h : sameFamily n ip = true) : ip = n.mkAddr ip.bits := by
  cases n <;> cases ip <;> simp_all [sameFamily, IpNetwork.mkAddr, IpAddr.bits]

theorem netContains_decompose (n : IpNetwork) (ip : IpAddr)
    (h : netContains n ip = true) :
    ∃ i, i < n.block ∧ ip = n.mkAddr (n.baseBits + i) := by
  have hf : sameFamily n ip = true := by
    simp [netContains, Bool.and_eq_true] at h
    exact h.1
  have hdiv : ip.bits / n.block = n.addrBits / n.block := by
    simp [netContains, Bool.and_eq_true] at h
    exact h.2
  refine ⟨ip.bits % n.block, Nat.mod_lt _ n.block_pos, ?_⟩
  have hbits : n.baseBits + ip.bits % n.block = ip.bits := by
    unfold IpNetwork.baseBits
    rw [← hdiv, Nat.mul_comm]
    exact Nat.div_add_mod ip.bits n.block
  rw [hbits]
  exact sameFamily_shape n ip hf

/-- Membership in the scanned enumeration (`iter().skip(1)`): exactly
the contained addresses other than the base address. -/
theorem mem_hostEnum (n : IpNetwork) (ip : IpAddr) :
    ip ∈ (iterList n).drop 1 ↔
      netContains n ip = true ∧ ip ≠ n.network := by
  obtain ⟨m, hm⟩ : ∃ m, n.block = m + 1 :=
    ⟨n.block - 1, (Nat.succ_pred_eq_of_pos n.block_pos).symm⟩
  have henum : (iterList n).drop 1 =
      (List.range m).map (fun i => n.mkAddr (n.baseBits + (i + 1))) := by
    unfold iterList
    rw [hm, List.range_succ_eq_map, ← List.map_drop]
    simp [List.map_map, Function.comp, Nat.succ_eq_add_one]
  rw [henum]
  constructor
  · intro hmem
    obtain ⟨i, hi, hip⟩ := by simpa [List.mem_map, List.mem_range] using hmem
    subst hip
    refine ⟨netContains_base_add n (i + 1) (by omega), ?_⟩
    intro hEq
    have := n.mkAddr_inj hEq
    omega
  · rintro ⟨hc, hne⟩
    obtain ⟨i, hi, hip⟩ := netContains_decompose n ip hc
    have hi0 : i ≠ 0 := by
      intro h0
      exact hne (by simp [h0, IpNetwork.network] at hip ⊢; exact hip)
    obtain ⟨j, hj⟩ : ∃ j, i = j + 1 := ⟨i - 1, by omega⟩
    simp only [List.mem_map, List.mem_range]
    exact ⟨j, by omega, by rw [← hj, ← hip]⟩

theorem hostEnum_sorted (n : IpNetwork) :
    ((iterList n).drop 1).Pairwise (fun x y => x.bits < y.bits) := by
  unfold iterList
  rw [← List.map_drop]
  refine List.Pairwise.map _ ?_ ((List.pairwise_lt_range n.block).sublist
    (List.drop_sublist 1 _))
  intro a b hab
  simpa [IpNetwork.bits_mkAddr] using Nat.add_lt_add_left hab n.baseBits

theorem find?_min_of_sorted {α : Type} (key : α → Nat) (p : α → Bool) :
    ∀ l : List α, l.Pairwise (fun x y => key x < key y) →
      ∀ a, l.find? p = some a → ∀ b ∈ l, p b = true → key a ≤ key b := by
  intro l
  induction l with
  | nil => intro _ a ha; simp at ha
  | cons x xs ih =>
    intro hp a hf b hb hpb
    by_cases hpx : p x = true
    · rw [List.find?_cons_of_pos _ hpx] at hf
      cases hf
      rcases List.mem_cons.mp hb with rfl | hb'
      · exact Nat.le_refl _
      · exact Nat.le_of_lt (List.rel_of_pairwise_cons hp hb')
    · rw [List.find?_cons_of_neg _ hpx] at hf
      rcases List.mem_cons.mp hb with rfl | hb'
      · exact absurd hpb hpx
      · exact ih hp.of_cons a hf b hb' hpb

/-- For a contained address, membership in `allocate_next_ip`'s
allocated set is membership among the lease addresses. -/
theorem mem_allocatedIn_iff (n : IpNetwork) (leases : List IpLease)
    (ip : IpAddr) (hc : netContains n ip = true) :
    (allocatedIn n leases).contains ip = true ↔
      ip ∈ leases.map (·.ip_address) := by
  have hc1 : (allocatedIn n leases).contains ip = true ↔
      ip ∈ allocatedIn n leases := List.elem_iff
  rw [hc1]
  simp only [allocatedIn, List.mem_map, List.mem_filter]
  constructor
  · rintro ⟨l, ⟨hl, _⟩, hlip⟩
    exact ⟨l, hl, hlip⟩
  · rintro ⟨l, hl, hlip⟩
    exact ⟨l, ⟨hl, by rw [hlip]; exact hc⟩, hlip⟩

/-- The scanner's loop predicate, for a contained address. -/
theorem allocPred_iff (n : IpNetwork) (leases : List IpLease) (ip : IpAddr)
    (hc : netContains n ip = true) :
    ((!(ip.is_ipv4 && ip == n.broadcast) &&
        !((allocatedIn n leases).contains ip)) = true) ↔
      (¬(ip.is_ipv4 = true ∧ ip = n.broadcast) ∧
        ip ∉ leases.map (·.ip_address)) := by
  rw [Bool.and_eq_true, Bool.not_eq_true', Bool.not_eq_true',
    ← Bool.not_eq_true ((allocatedIn n leases).contains ip),
    mem_allocatedIn_iff n leases ip hc]
  constructor
  · rintro ⟨h1, h2⟩
    refine ⟨?_, h2⟩
    rintro ⟨hv, hbc⟩
    rw [hv, hbc] at h1
    simp at h1
  · rintro ⟨h1, h2⟩
    refine ⟨?_, h2⟩
    by_cases hv : ip.is_ipv4 = true
    · by_cases hbc : ip = n.broadcast
      · exact absurd ⟨hv, hbc⟩ h1
      · simp [hbc]
    · simp [Bool.not_eq_true] at hv
      simp [hv]

theorem decodePool_encodePool (p : PoolInfo) :
    decodePool (encodePool p) = some p := by
  obtain ⟨pid, sub, gw⟩ := p
  cases gw <;> rfl

theorem decodeLease_encodeLease (l : IpLease) :
    decodeLease (encodeLease l) = some l := rfl

theorem decodePoolEntries_encode (l : List (String × PoolInfo)) :
    decodePoolEntries (l.map (fun kv => (kv.1, encodePool kv.2))) =
      some l := by
  induction l with
  | nil => rfl
  | cons h t ih => simp [decodePoolEntries, decodePool_encodePool, ih]

theorem decodeLeaseItems_encode (l : List IpLease) :
    decodeLeaseItems (l.map encodeLease) = some l := by
  induction l with
  | nil => rfl
  | cons h t ih => simp [decodeLeaseItems, decodeLease_encodeLease, ih]

/-! ## The claims -/

/-- C8: for every State, saving it to the backing file and then loading
from that file yields a State equal to the one saved — every pool
(id, subnet, gateway) and every lease (address, holder, timestamp)
present before the save is present, unchanged, after a fresh load, and
nothing else is present. -/
theorem c8_save_load_roundtrip (s : IpamState) :
    storageLoad (storageSave s) = some s := by
  obtain ⟨pools, leases⟩ := s
  have h1 : storageLoad (storageSave ⟨pools, leases⟩) =
      (match decodePoolEntries
          (pools.map (fun kv => (kv.1, encodePool kv.2))),
        decodeLeaseItems (leases.map encodeLease) with
      | some ps, some ls => some ⟨ps, ls⟩
      | _, _ => none) := rfl
  rw [h1, decodePoolEntries_encode, decodeLeaseItems_encode]

/-- C6: `ReleaseAddress` strips any `/prefix` suffix before parsing; a
parse failure of the remaining text is a `ValidationError` (with the
state untouched and nothing persisted); otherwise it removes the lease
matching that address if one exists and succeeds whether or not a
matching lease existed — a second call succeeds again and changes
nothing — and persists afterward regardless of whether a lease was
removed. -/
theorem c6_release_address_contract (pid address : String) (s : IpamState) :
    (parseIpAddr (stripCidrSuffix address) = none →
      release_address pid address s =
        (.error (.validation "Invalid IP address format"), s, false)) ∧
    (∀ ip, parseIpAddr (stripCidrSuffix address) = some ip →
      release_address pid address s =
        (.ok (), ⟨s.pools, s.leases.filter (fun l => l.ip_address != ip)⟩,
          true) ∧
      release_address pid address (release_address pid address s).2.1 =
        (.ok (), (release_address pid address s).2.1, true)) := by
  constructor
  · intro h
    simp [release_address, h]
  · intro ip h
    have hidem : ∀ (l : List IpLease) (q : IpLease → Bool),
        (l.filter q).filter q = l.filter q := by
      intro l q
      rw [List.filter_filter]
      simp
    constructor
    · simp [release_address, h]
    · simp [release_address, h, hidem]

/-- C6 witness: releasing `10.0.0.1/24` from a state holding a lease on
`10.0.0.1` succeeds, removes the lease, persists, and a second release
succeeds and changes nothing. -/
theorem c6_release_address_contract_witness :
    (release_address "p" "10.0.0.1/24"
        ⟨[], [⟨.v4 167772161, "c", ⟨0⟩⟩]⟩ =
      (.ok (),
        ⟨(⟨[], [⟨.v4 167772161, "c", ⟨0⟩⟩]⟩ : IpamState).pools,
          (⟨[], [⟨.v4 167772161, "c", ⟨0⟩⟩]⟩ : IpamState).leases.filter
            (fun l => l.ip_address != .v4 167772161)⟩, true)) ∧
    (release_address "p" "10.0.0.1/24"
        (release_address "p" "10.0.0.1/24"
          ⟨[], [⟨.v4 167772161, "c", ⟨0⟩⟩]⟩).2.1 =
      (.ok (),
        (release_address "p" "10.0.0.1/24"
          ⟨[], [⟨.v4 167772161, "c", ⟨0⟩⟩]⟩).2.1, true)) :=
  (c6_release_address_contract "p" "10.0.0.1/24"
    ⟨[], [⟨.v4 167772161, "c", ⟨0⟩⟩]⟩).2 (.v4 167772161) (by decide)

/-- C7: requesting a specific address that parses but does not lie
within the pool's subnet fails with the `ValidationError` naming the
address and the subnet it is not contained in, and the state is left
unchanged (no lease is created, nothing is persisted). -/
theorem c7_specific_address_outside_subnet
    (pid addrStr : String) (opts : Option (List (String × String)))
    (now : Timestamp) (s : IpamState) (pool : PoolInfo)
    (network : IpNetwork) (ip : IpAddr)
    (hpool : mapGet s.pools pid = some pool)
    (hnet : parseIpNetwork pool.subnet = some network)
    (hip : parseIpAddr addrStr = some ip)
    (hout : netContains network ip = false) :
    request_address pid (some addrStr) opts now s =
      (.error (.validation ("IP address " ++ dispIp ip ++
        " is not in subnet " ++ dispNet network)), s, false) := by
  simp [request_address, hpool, hnet, hip, hout]

/-- C7 witness: requesting `172.16.0.5` against the `10.0.0.0/30` pool
fails with the containment `ValidationError` and leaves the state
unchanged. -/
theorem c7_specific_address_outside_subnet_witness :
    request_address "p" (some "172.16.0.5") none ⟨0⟩ pool30State =
      (.error (.validation ("IP address " ++ dispIp (.v4 2886729733) ++
        " is not in subnet " ++ dispNet (.v4 167772160 30))),
        pool30State, false) :=
  c7_specific_address_outside_subnet "p" "172.16.0.5" none ⟨0⟩ pool30State
    ⟨"p", "10.0.0.0/30", none⟩ (.v4 167772160 30) (.v4 2886729733)
    (by decide) (by decide) (by decide) (by decide)

/-- C9: `release_address` never consults its pool id argument — its
result is identical for any two pool ids — and for every parseable
address it succeeds and removes the lease for that address (if any)
even when the supplied pool id is unknown or names a pool whose subnet
does not contain the address. -/
theorem c9_release_address_ignores_pool_id :
    (∀ pid1 pid2 address s,
      release_address pid1 address s = release_address pid2 address s) ∧
    (∀ pid address s ip,
      parseIpAddr (stripCidrSuffix address) = some ip →
      (release_address pid address s).1 = .ok () ∧
      (release_address pid address s).2.1.leases =
        s.leases.filter (fun l => l.ip_address != ip)) := by
  constructor
  · intro _ _ _ _
    rfl
  · intro pid address s ip h
    simp [release_address, h]

/-- C9 witness: with an unknown pool id and an address outside the only
pool's subnet, release still succeeds and filters the lease list. -/
theorem c9_release_address_ignores_pool_id_witness :
    (release_address "unknown-pool" "10.0.0.5" pool30State).1 = .ok () ∧
    (release_address "unknown-pool" "10.0.0.5" pool30State).2.1.leases =
      pool30State.leases.filter (fun l => l.ip_address != .v4 167772165) :=
  c9_release_address_ignores_pool_id.2 "unknown-pool" "10.0.0.5" pool30State
    (.v4 167772165) (by decide)

theorem mapGet_mapRemove (m : List (String × PoolInfo)) (k : String) :
    mapGet (mapRemove m k) k = none := by
  unfold mapGet mapRemove
  rw [Option.map_eq_none', List.find?_eq_none]
  intro kv hkv
  have h2 := (List.mem_filter.mp hkv).2
  simpa [bne] using h2

/-- C3: `DeletePool` succeeds (and persists) whether or not the id is
present; when the id is absent the state is unchanged; when the pool
was present it removes the pool entry and every lease whose address is
contained in that pool's subnet, and afterwards `RequestAddress`
against the deleted pool id fails with the `NotFoundError`. -/
theorem c3_delete_pool_cascade (pid : String) (s : IpamState) :
    ((release_pool pid s).1 = .ok () ∧ (release_pool pid s).2.2 = true) ∧
    (mapGet s.pools pid = none → release_pool pid s = (.ok (), s, true)) ∧
    (∀ pool network, mapGet s.pools pid = some pool →
      parseIpNetwork pool.subnet = some network →
      (release_pool pid s).2.1 =
        ⟨mapRemove s.pools pid,
          s.leases.filter (fun l => !netContains network l.ip_address)⟩ ∧
      ∀ addr opts now,
        (request_address pid addr opts now (release_pool pid s).2.1).1 =
          .error (.notFound ("Pool not found: " ++ pid))) := by
  refine ⟨⟨rfl, rfl⟩, ?_, ?_⟩
  · intro h
    have hfind : s.pools.find? (fun kv => kv.1 == pid) = none :=
      Option.map_eq_none'.mp h
    have hrm : mapRemove s.pools pid = s.pools := by
      unfold mapRemove
      rw [List.filter_eq_self]
      intro kv hkv
      have := List.find?_eq_none.mp hfind kv hkv
      simpa [bne] using this
    simp [release_pool, h, hrm]
  · intro pool network hp hn
    constructor
    · simp [release_pool, hp, hn]
    · intro addr opts now
      have hnone : mapGet (release_pool pid s).2.1.pools pid = none := by
        have : (release_pool pid s).2.1.pools = mapRemove s.pools pid := rfl
        rw [this, mapGet_mapRemove]
      simp [request_address, hnone]

/-- C3 witness: deleting the `/30` pool from a state holding it and a
contained lease removes both, and a subsequent `RequestAddress` fails
with `NotFoundError`. -/
theorem c3_delete_pool_cascade_witness :
    (release_pool "p" ⟨[("p", ⟨"p", "10.0.0.0/30", none⟩)],
        [⟨.v4 167772161, "c", ⟨0⟩⟩]⟩).2.1 =
      ⟨mapRemove [("p", ⟨"p", "10.0.0.0/30", none⟩)] "p",
        [⟨.v4 167772161, "c", ⟨0⟩⟩].filter
          (fun l => !netContains (.v4 167772160 30) l.ip_address)⟩ ∧
    ∀ addr opts now,
      (request_address "p" addr opts now
          (release_pool "p" ⟨[("p", ⟨"p", "10.0.0.0/30", none⟩)],
            [⟨.v4 167772161, "c", ⟨0⟩⟩]⟩).2.1).1 =
        .error (.notFound ("Pool not found: " ++ "p")) :=
  (c3_delete_pool_cascade "p" ⟨[("p", ⟨"p", "10.0.0.0/30", none⟩)],
      [⟨.v4 167772161, "c", ⟨0⟩⟩]⟩).2.2
    ⟨"p", "10.0.0.0/30", none⟩ (.v4 167772160 30) (by decide) (by decide)

theorem except_map_error_iff {ε α β : Type} (f : α → β) (r : Except ε α)
    (e : ε) : r.map f = .error e ↔ r = .error e := by
  cases r <;> simp [Except.map]

theorem request_pool_error_frozen (d : String) (nanos : Nat)
    (p : Option String) (s : IpamState) (e : IpamErr)
    (h : (request_pool d nanos p s).1 = .error e) :
    (request_pool d nanos p s).2.1 = s ∧
    (request_pool d nanos p s).2.2 = false := by
  rcases hp : parseIpNetwork (p.getD d) with _ | net
  · simp [request_pool, hp]
  · simp [request_pool, hp] at h

theorem request_address_error_frozen (pid : String) (address : Option String)
    (opts : Option (List (String × String))) (now : Timestamp)
    (s : IpamState) (e : IpamErr)
    (h : (request_address pid address opts now s).1 = .error e) :
    (request_address pid address opts now s).2.1 = s ∧
    (request_address pid address opts now s).2.2 = false := by
  rcases hpool : mapGet s.pools pid with _ | pool
  · simp [request_address, hpool]
  · rcases hnet : parseIpNetwork pool.subnet with _ | network
    · simp [request_address, hpool, hnet]
    · rcases address with _ | a
      · rcases halloc : allocate_next_ip network s.leases with _ | ip
        · simp [request_address, hpool, hnet, halloc]
        · by_cases hc : netContains network ip = true
          · simp [request_address, hpool, hnet, halloc, hc] at h
          · rw [Bool.not_eq_true] at hc
            simp [request_address, hpool, hnet, halloc, hc]
      · rcases hip : parseIpAddr a with _ | ip
        · simp [request_address, hpool, hnet, hip]
        · by_cases hc : netContains network ip = true
          · simp [request_address, hpool, hnet, hip, hc] at h
          · rw [Bool.not_eq_true] at hc
            simp [request_address, hpool, hnet, hip, hc]

theorem release_address_error_frozen (pid address : String) (s : IpamState)
    (e : IpamErr) (h : (release_address pid address s).1 = .error e) :
    (release_address pid address s).2.1 = s ∧
    (release_address pid address s).2.2 = false := by
  rcases hip : parseIpAddr (stripCidrSuffix address) with _ | ip
  · simp [release_address, hip]
  · simp [release_address, hip] at h

/-- C4: whenever an operation fails with a validation, not-found, or
exhaustion error (the only error kinds the engine raises), the
in-memory state is left unchanged and the save call was never even
reached — all such failures occur before any mutation of pools or
leases. -/
theorem c4_failed_operations_leave_state_unchanged
    (d : String) (op : IpamOp) (s : IpamState) (e : IpamErr)
    (h : (applyOp d op s).1 = .error e) :
    (applyOp d op s).2.1 = s ∧ (applyOp d op s).2.2 = false := by
  cases op with
  | reqPool nanos pool =>
    simp only [applyOp] at h ⊢
    exact request_pool_error_frozen d nanos pool s e
      ((except_map_error_iff _ _ _).mp h)
  | relPool pid =>
    simp only [applyOp] at h
    have h' : (release_pool pid s).1 = .error e :=
      (except_map_error_iff _ _ _).mp h
    simp [release_pool] at h'
  | reqAddr pid addr opts now =>
    simp only [applyOp] at h ⊢
    exact request_address_error_frozen pid addr opts now s e
      ((except_map_error_iff _ _ _).mp h)
  | relAddr pid addr =>
    simp only [applyOp] at h ⊢
    exact release_address_error_frozen pid addr s e
      ((except_map_error_iff _ _ _).mp h)

/-- C4 witness: a `RequestAddress` against an unknown pool id fails and
leaves the empty state unchanged, without saving. -/
theorem c4_failed_operations_leave_state_unchanged_witness :
    (applyOp "10.0.0.0/24" (.reqAddr "nope" none none ⟨0⟩) ⟨[], []⟩).2.1 =
      ⟨[], []⟩ ∧
    (applyOp "10.0.0.0/24" (.reqAddr "nope" none none ⟨0⟩) ⟨[], []⟩).2.2 =
      false :=
  c4_failed_operations_leave_state_unchanged "10.0.0.0/24"
    (.reqAddr "nope" none none ⟨0⟩) ⟨[], []⟩
    (.notFound ("Pool not found: " ++ "nope")) (by decide)

/-! ## Pool id generation (claim C5) -/

theorem unhexVal_hexChar : ∀ d, d < 16 →
    unhexVal (if d < 10 then Char.ofNat (48 + d) else Char.ofNat (87 + d)) =
      d := by
  decide

theorem unhex_append_digit (cs : List Char) (c : Char) :
    unhex (cs ++ [c]) = unhex cs * 16 + unhexVal c := by
  simp [unhex, List.foldl_append]

theorem unhex_hexDigitsAux : ∀ fuel n, n < fuel →
    unhex (hexDigitsAux fuel n) = n := by
  intro fuel
  induction fuel with
  | zero => intro n h; omega
  | succ f ih =>
    intro n h
    by_cases h16 : n < 16
    · show unhex (hexDigitsAux (f + 1) n) = n
      rw [hexDigitsAux, if_pos h16]
      have := unhexVal_hexChar n h16
      simpa [unhex] using this
    · show unhex (hexDigitsAux (f + 1) n) = n
      rw [hexDigitsAux, if_neg h16, unhex_append_digit]
      have hdivlt : n / 16 < f := by
        have h1 : n / 16 < n := Nat.div_lt_self (by omega) (by omega)
        omega
      rw [ih (n / 16) hdivlt,
        unhexVal_hexChar (n % 16) (Nat.mod_lt _ (by omega))]
      have := Nat.div_add_mod n 16
      omega

theorem unhex_replicate_zero (k : Nat) (cs : List Char) :
    unhex (List.replicate k '0' ++ cs) = unhex cs := by
  induction k with
  | zero => simp
  | succ k ih =>
    have h0 : unhexVal '0' = 0 := by decide
    rw [List.replicate_succ, List.cons_append]
    unfold unhex at ih ⊢
    simp only [List.foldl_cons, h0]
    simpa using ih

theorem uuidDisplay_inj {n1 n2 : Nat} (h : uuidDisplay n1 = uuidDisplay n2) :
    n1 = n2 := by
  have h1 : unhex (uuidDisplay n1).data = n1 := by
    show unhex (List.replicate _ '0' ++ hexDigitsAux (n1 + 1) n1) = n1
    rw [unhex_replicate_zero]
    exact unhex_hexDigitsAux (n1 + 1) n1 (Nat.lt_succ_self n1)
  have h2 : unhex (uuidDisplay n2).data = n2 := by
    show unhex (List.replicate _ '0' ++ hexDigitsAux (n2 + 1) n2) = n2
    rw [unhex_replicate_zero]
    exact unhex_hexDigitsAux (n2 + 1) n2 (Nat.lt_succ_self n2)
  rw [← h1, ← h2, h]

theorem genPoolId_inj {n1 n2 : Nat} (h : genPoolId n1 = genPoolId n2) :
    n1 = n2 := by
  apply uuidDisplay_inj
  have hd : "pool-".data ++ (uuidDisplay n1).data =
      "pool-".data ++ (uuidDisplay n2).data := congrArg String.data h
  exact String.ext (List.append_cancel_left hd)

/-- C5 (amended): successful `CreatePool` calls return distinct pool
ids whenever the wall-clock nanosecond readings they observe are
distinct — the id is injective in the clock reading, which is the
generator's only source of variation. -/
theorem c5_pool_ids_distinct_for_distinct_clock_readings
    (d1 d2 : String) (n1 n2 : Nat) (p1 p2 : Option String)
    (s1 s2 : IpamState) (r1 r2 : RequestPoolResponse)
    (hn : n1 ≠ n2)
    (h1 : (request_pool d1 n1 p1 s1).1 = .ok r1)
    (h2 : (request_pool d2 n2 p2 s2).1 = .ok r2) :
    r1.pool_id ≠ r2.pool_id := by
  have e1 : r1.pool_id = genPoolId n1 := by
    rcases hp : parseIpNetwork (p1.getD d1) with _ | net
    · simp [request_pool, hp] at h1
    · simp [request_pool, hp] at h1
      rw [← h1]
  have e2 : r2.pool_id = genPoolId n2 := by
    rcases hp : parseIpNetwork (p2.getD d2) with _ | net
    · simp [request_pool, hp] at h2
    · simp [request_pool, hp] at h2
      rw [← h2]
  rw [e1, e2]
  intro hEq
  exact hn (genPoolId_inj hEq)

/-- C5 witness: two pools created with distinct clock readings. -/
theorem c5_pool_ids_distinct_witness :
    (⟨"pool-00000000000000000000000000000000", "10.0.0.0/24", []⟩ :
        RequestPoolResponse).pool_id ≠
      (⟨"pool-00000000000000000000000000000001", "10.0.0.0/24", []⟩ :
        RequestPoolResponse).pool_id :=
  c5_pool_ids_distinct_for_distinct_clock_readings
    "10.0.0.0/24" "10.0.0.0/24" 0 1 none none ⟨[], []⟩ ⟨[], []⟩
    ⟨"pool-00000000000000000000000000000000", "10.0.0.0/24", []⟩
    ⟨"pool-00000000000000000000000000000001", "10.0.0.0/24", []⟩
    (by decide) (by decide) (by decide)

/-- C5 counterexample: the claim that every `CreatePool` call returns
an id distinct from all earlier ones fails on the code, whose
`uuid::Uuid::new_v4` derives the id solely from the wall-clock
nanosecond reading: two consecutive successful calls that observe the
same reading (the clock is not guaranteed to advance between calls)
return the identical pool id. -/
theorem c5_same_clock_reading_collides :
    (request_pool "10.0.0.0/24" 0 none ⟨[], []⟩).1 =
      .ok ⟨"pool-00000000000000000000000000000000", "10.0.0.0/24", []⟩ ∧
    (request_pool "10.0.0.0/24" 0 none
        (request_pool "10.0.0.0/24" 0 none ⟨[], []⟩).2.1).1 =
      .ok ⟨"pool-00000000000000000000000000000000", "10.0.0.0/24", []⟩ := by
  decide

/-! ## Lease uniqueness (claim C2) -/

theorem nodup_map_filter (leases : List IpLease) (p : IpLease → Bool)
    (h : (leases.map (·.ip_address)).Nodup) :
    ((leases.filter p).map (·.ip_address)).Nodup :=
  List.Nodup.sublist
    (List.Sublist.map _ (List.filter_sublist leases)) h

theorem nodup_replace (leases : List IpLease) (ip : IpAddr) (cn : String)
    (t : Timestamp) (h : (leases.map (·.ip_address)).Nodup) :
    ((leases.filter (fun l : IpLease => l.ip_address != ip) ++
        ([⟨ip, cn, t⟩] : List IpLease)).map (·.ip_address)).Nodup := by
  rw [List.map_append]
  refine List.Nodup.append (nodup_map_filter _ _ h) (by simp) ?_
  simp only [List.map_cons, List.map_nil]
  rw [List.disjoint_singleton]
  intro hmem
  obtain ⟨l, hl, hlip⟩ := List.mem_map.mp hmem
  have hne := (List.mem_filter.mp hl).2
  rw [hlip] at hne
  simp at hne

theorem request_pool_leases (d : String) (n : Nat) (p : Option String)
    (s : IpamState) : (request_pool d n p s).2.1.leases = s.leases := by
  rcases hp : parseIpNetwork (p.getD d) with _ | net <;>
    simp [request_pool, hp]

theorem release_pool_leases_cases (pid : String) (s : IpamState) :
    (release_pool pid s).2.1.leases = s.leases ∨
    ∃ network, (release_pool pid s).2.1.leases =
      s.leases.filter (fun l => !netContains network l.ip_address) := by
  rcases hps : mapGet s.pools pid with _ | pool
  · left
    simp [release_pool, hps]
  · rcases hp : parseIpNetwork pool.subnet with _ | network
    · left
      simp [release_pool, hps, hp]
    · right
      exact ⟨network, by simp [release_pool, hps, hp]⟩

theorem request_address_leases_cases (pid : String) (addr : Option String)
    (opts : Option (List (String × String))) (now : Timestamp)
    (s : IpamState) :
    (request_address pid addr opts now s).2.1.leases = s.leases ∨
    ∃ ip : IpAddr, (request_address pid addr opts now s).2.1.leases =
      s.leases.filter (fun l => l.ip_address != ip) ++
        [(⟨ip, extractContainerName opts, now⟩ : IpLease)] := by
  rcases hpool : mapGet s.pools pid with _ | pool
  · left
    simp [request_address, hpool]
  · rcases hnet : parseIpNetwork pool.subnet with _ | network
    · left
      simp [request_address, hpool, hnet]
    · rcases addr with _ | a
      · rcases halloc : allocate_next_ip network s.leases with _ | ip
        · left
          simp [request_address, hpool, hnet, halloc]
        · by_cases hc : netContains network ip = true
          · right
            exact ⟨ip, by simp [request_address, hpool, hnet, halloc, hc]⟩
          · left
            rw [Bool.not_eq_true] at hc
            simp [request_address, hpool, hnet, halloc, hc]
      · rcases hip : parseIpAddr a with _ | ip
        · left
          simp [request_address, hpool, hnet, hip]
        · by_cases hc : netContains network ip = true
          · right
            exact ⟨ip, by simp [request_address, hpool, hnet, hip, hc]⟩
          · left
            rw [Bool.not_eq_true] at hc
            simp [request_address, hpool, hnet, hip, hc]

theorem release_address_leases_cases (pid a : String) (s : IpamState) :
    (release_address pid a s).2.1.leases = s.leases ∨
    ∃ ip : IpAddr, (release_address pid a s).2.1.leases =
      s.leases.filter (fun l => l.ip_address != ip) := by
  rcases hip : parseIpAddr (stripCidrSuffix a) with _ | ip
  · left
    simp [release_address, hip]
  · right
    exact ⟨ip, by simp [release_address, hip]⟩

theorem applyOp_preserves_leaseInv (d : String) (op : IpamOp)
    (s : IpamState) (h : LeaseInv s) : LeaseInv (applyOp d op s).2.1 := by
  unfold LeaseInv at h ⊢
  cases op with
  | reqPool n p =>
    have he : (applyOp d (.reqPool n p) s).2.1.leases = s.leases :=
      request_pool_leases d n p s
    rw [he]
    exact h
  | relPool pid =>
    rcases release_pool_leases_cases pid s with he | ⟨network, he⟩
    · rw [show (applyOp d (.relPool pid) s).2.1.leases = s.leases from he]
      exact h
    · rw [show (applyOp d (.relPool pid) s).2.1.leases = _ from he]
      exact nodup_map_filter _ _ h
  | reqAddr pid addr opts now =>
    rcases request_address_leases_cases pid addr opts now s with he | ⟨ip, he⟩
    · rw [show (applyOp d (.reqAddr pid addr opts now) s).2.1.leases =
        s.leases from he]
      exact h
    · rw [show (applyOp d (.reqAddr pid addr opts now) s).2.1.leases = _
        from he]
      exact nodup_replace _ _ _ _ h
  | relAddr pid a =>
    rcases release_address_leases_cases pid a s with he | ⟨ip, he⟩
    · rw [show (applyOp d (.relAddr pid a) s).2.1.leases = s.leases from he]
      exact h
    · rw [show (applyOp d (.relAddr pid a) s).2.1.leases = _ from he]
      exact nodup_map_filter _ _ h

/-- C2: every reachable state has at most one lease per distinct
address; every operation preserves this invariant from any state
satisfying it; and a successful `RequestAddress` for an
already-parseable contained address succeeds and leaves exactly one
lease for that address — the fresh one carrying the requesting holder —
rather than appending a duplicate. -/
theorem c2_at_most_one_lease_per_address :
    (∀ d s, Reachable d s → LeaseInv s) ∧
    (∀ d op s, LeaseInv s → LeaseInv (applyOp d op s).2.1) ∧
    (∀ pid addrStr opts now s pool network ip,
      mapGet s.pools pid = some pool →
      parseIpNetwork pool.subnet = some network →
      parseIpAddr addrStr = some ip →
      netContains network ip = true →
      (request_address pid (some addrStr) opts now s).1 =
        .ok ⟨dispIp ip ++ "/" ++ decStr network.prefixLen, []⟩ ∧
      (request_address pid (some addrStr) opts now s).2.1.leases.filter
          (fun l => l.ip_address == ip) =
        [⟨ip, extractContainerName opts, now⟩]) := by
  refine ⟨?_, applyOp_preserves_leaseInv, ?_⟩
  · intro d s h
    induction h with
    | init => simp [LeaseInv]
    | step op hr ih => exact applyOp_preserves_leaseInv _ op _ ih
  · intro pid addrStr opts now s pool network ip hpool hnet hip hc
    have hleft : (s.leases.filter (fun l => l.ip_address != ip)).filter
        (fun l => l.ip_address == ip) = [] := by
      rw [List.filter_eq_nil_iff]
      intro a ha
      have hne := (List.mem_filter.mp ha).2
      simp [bne] at hne
      simp [hne]
    constructor
    · simp [request_address, hpool, hnet, hip, hc]
    · rw [show (request_address pid (some addrStr) opts now s).2.1.leases =
        s.leases.filter (fun l => l.ip_address != ip) ++
          [⟨ip, extractContainerName opts, now⟩] from by
        simp [request_address, hpool, hnet, hip, hc]]
      rw [List.filter_append, hleft]
      simp

/-- C2 witness: the empty state satisfies the invariant, and requesting
`10.0.0.2` against the `/30` pool leaves exactly one lease for it. -/
theorem c2_at_most_one_lease_per_address_witness :
    LeaseInv (⟨[], []⟩ : IpamState) ∧
    (request_address "p" (some "10.0.0.2") none ⟨5⟩ pool30State).2.1.leases.filter
        (fun l => l.ip_address == .v4 167772162) =
      [⟨.v4 167772162, extractContainerName none, ⟨5⟩⟩] :=
  ⟨c2_at_most_one_lease_per_address.1 "10.0.0.0/24" ⟨[], []⟩ Reachable.init,
    (c2_at_most_one_lease_per_address.2.2 "p" "10.0.0.2" none ⟨5⟩ pool30State
      ⟨"p", "10.0.0.0/30", none⟩ (.v4 167772160 30) (.v4 167772162)
      (by decide) (by decide) (by decide) (by decide)).2⟩

/-- C10: the subnet's base (network) address and, for IPv4, its
broadcast address pass the containment check, so an explicit request
for either succeeds and creates the lease, even though the first-fit
scan never selects either of them for automatic allocation. -/
theorem c10_base_and_broadcast_leasable_explicitly :
    (∀ network : IpNetwork,
      netContains network network.network = true ∧
      netContains network network.broadcast = true) ∧
    (∀ (network : IpNetwork) (leases : List IpLease) (ip : IpAddr),
      allocate_next_ip network leases = some ip →
      ip ≠ network.network ∧ ¬(ip.is_ipv4 = true ∧ ip = network.broadcast)) ∧
    (∀ pid addrStr opts now s pool network ip,
      mapGet s.pools pid = some pool →
      parseIpNetwork pool.subnet = some network →
      parseIpAddr addrStr = some ip →
      (ip = network.network ∨ ip = network.broadcast) →
      (request_address pid (some addrStr) opts now s).1 =
        .ok ⟨dispIp ip ++ "/" ++ decStr network.prefixLen, []⟩ ∧
      (⟨ip, extractContainerName opts, now⟩ : IpLease) ∈
        (request_address pid (some addrStr) opts now s).2.1.leases) := by
  have hcontains : ∀ network : IpNetwork,
      netContains network network.network = true ∧
      netContains network network.broadcast = true := by
    intro n
    constructor
    · have h0 : n.network = n.mkAddr (n.baseBits + 0) := by
        simp [IpNetwork.network]
      rw [h0]
      exact netContains_base_add n 0 n.block_pos
    · have h1 : n.baseBits + n.block - 1 = n.baseBits + (n.block - 1) := by
        have := n.block_pos
        omega
      have h0 : n.broadcast = n.mkAddr (n.baseBits + (n.block - 1)) := by
        simp [IpNetwork.broadcast, h1]
      rw [h0]
      refine netContains_base_add n (n.block - 1) ?_
      have := n.block_pos
      omega
  refine ⟨hcontains, ?_, ?_⟩
  · intro network leases ip h
    have hmem := List.mem_of_find?_eq_some h
    have hpred := List.find?_some h
    rw [mem_hostEnum] at hmem
    refine ⟨hmem.2, ?_⟩
    rintro ⟨hv, hbc⟩
    rw [Bool.and_eq_true] at hpred
    have h1 := hpred.1
    rw [hv, hbc] at h1
    simp at h1
  · intro pid addrStr opts now s pool network ip hpool hnet hip hor
    have hc : netContains network ip = true := by
      rcases hor with h | h <;> rw [h]
      · exact (hcontains network).1
      · exact (hcontains network).2
    constructor
    · simp [request_address, hpool, hnet, hip, hc]
    · rw [show (request_address pid (some addrStr) opts now s).2.1.leases =
        s.leases.filter (fun l => l.ip_address != ip) ++
          [(⟨ip, extractContainerName opts, now⟩ : IpLease)] from by
        simp [request_address, hpool, hnet, hip, hc]]
      simp

/-- C10 witness: explicitly requesting the base address `10.0.0.0` of
the `/30` pool succeeds and creates its lease. -/
theorem c10_base_and_broadcast_leasable_explicitly_witness :
    (request_address "p" (some "10.0.0.0") none ⟨7⟩ pool30State).1 =
      .ok ⟨dispIp (.v4 167772160) ++ "/" ++
        decStr ((IpNetwork.v4 167772160 30).prefixLen), []⟩ ∧
    (⟨.v4 167772160, extractContainerName none, ⟨7⟩⟩ : IpLease) ∈
      (request_address "p" (some "10.0.0.0") none ⟨7⟩ pool30State).2.1.leases :=
  c10_base_and_broadcast_leasable_explicitly.2.2 "p" "10.0.0.0" none ⟨7⟩
    pool30State ⟨"p", "10.0.0.0/30", none⟩ (.v4 167772160 30) (.v4 167772160)
    (by decide) (by decide) (by decide) (Or.inl (by decide))

/-- An address is scanned by `allocate_next_ip` and passes its loop
predicate exactly when it is a usable host not currently leased. -/
theorem usable_unleased_iff (network : IpNetwork) (leases : List IpLease)
    (ip : IpAddr) :
    (ip ∈ (iterList network).drop 1 ∧
      (!(ip.is_ipv4 && ip == network.broadcast) &&
        !((allocatedIn network leases).contains ip)) = true) ↔
    (UsableHost network ip ∧ ip ∉ leases.map (·.ip_address)) := by
  constructor
  · rintro ⟨hmem, hpred⟩
    have hm := (mem_hostEnum network ip).mp hmem
    have hp := (allocPred_iff network leases ip hm.1).mp hpred
    exact ⟨⟨hm.1, hm.2, hp.1⟩, hp.2⟩
  · rintro ⟨⟨hc, hne, hnb⟩, hnl⟩
    exact ⟨(mem_hostEnum network ip).mpr ⟨hc, hne⟩,
      (allocPred_iff network leases ip hc).mpr ⟨hnb, hnl⟩⟩

/-- C1: for every pool and every lease set, the automatic address
request returns the numerically lowest usable address of the subnet
not already leased, enumerating in ascending order and always skipping
the base address (and the broadcast address when IPv4); it fails with
the exhaustion error exactly when no usable address is free.  In
particular, over `10.0.0.0/30`, allocating twice yields `10.0.0.1/30`
then `10.0.0.2/30`, and a third allocation fails with the
`ExhaustionError`. -/
theorem c1_first_fit_allocation :
    (∀ (network : IpNetwork) (leases : List IpLease),
      (∀ ip, allocate_next_ip network leases = some ip →
        UsableHost network ip ∧ ip ∉ leases.map (·.ip_address) ∧
        ∀ j, UsableHost network j → j ∉ leases.map (·.ip_address) →
          ip.bits ≤ j.bits) ∧
      (allocate_next_ip network leases = none →
        ∀ j, UsableHost network j → j ∈ leases.map (·.ip_address)) ∧
      ((∃ j, UsableHost network j ∧ j ∉ leases.map (·.ip_address)) →
        ∃ ip, allocate_next_ip network leases = some ip)) ∧
    ((request_address "p" none none ⟨0⟩ pool30State).1 =
        .ok ⟨"10.0.0.1/30", []⟩ ∧
      (request_address "p" none none ⟨1⟩ pool30State1).1 =
        .ok ⟨"10.0.0.2/30", []⟩ ∧
      (request_address "p" none none ⟨2⟩ pool30State2).1 =
        .error (.exhaustion
          "No available IP addresses in subnet 10.0.0.0/30")) := by
  constructor
  · intro network leases
    refine ⟨?_, ?_, ?_⟩
    · intro ip h
      unfold allocate_next_ip at h
      have hmem := List.mem_of_find?_eq_some h
      have hpred := List.find?_some h
      obtain ⟨hu, hnl⟩ :=
        (usable_unleased_iff network leases ip).mp ⟨hmem, hpred⟩
      refine ⟨hu, hnl, ?_⟩
      intro j hju hjnl
      obtain ⟨hjm, hjp⟩ :=
        (usable_unleased_iff network leases j).mpr ⟨hju, hjnl⟩
      exact find?_min_of_sorted IpAddr.bits _ _
        (hostEnum_sorted network) ip h j hjm hjp
    · intro h j hju
      by_contra hjnl
      obtain ⟨hjm, hjp⟩ :=
        (usable_unleased_iff network leases j).mpr ⟨hju, hjnl⟩
      unfold allocate_next_ip at h
      exact absurd hjp (List.find?_eq_none.mp h j hjm)
    · rintro ⟨j, hju, hjnl⟩
      obtain ⟨hjm, hjp⟩ :=
        (usable_unleased_iff network leases j).mpr ⟨hju, hjnl⟩
      have hsome : (allocate_next_ip network leases).isSome = true := by
        unfold allocate_next_ip
        exact List.find?_isSome.mpr ⟨j, hjm, hjp⟩
      exact Option.isSome_iff_exists.mp hsome
  · refine ⟨by decide, by decide, by decide⟩

/-- C1 witness: over the `10.0.0.0/30` pool with no leases the scanner
returns `10.0.0.1`, which is a usable unleased host address. -/
theorem c1_first_fit_allocation_witness :
    UsableHost (.v4 167772160 30) (.v4 167772161) ∧
    (IpAddr.v4 167772161) ∉ ([] : List IpLease).map (·.ip_address) :=
  ⟨((c1_first_fit_allocation.1 (.v4 167772160 30) []).1 (.v4 167772161)
      (by decide)).1,
    ((c1_first_fit_allocation.1 (.v4 167772160 30) []).1 (.v4 167772161)
      (by decide)).2.1⟩
